import Mathlib

/-!
Shallow embedding of the smart-EV telemetry pipeline.

Sources embedded here:
- the batch ingestion writer (IngestionService.ingestMeterDataBatch and
  ingestVehicleDataBatch, the deduplicating variant),
- the buffer-based intake (TelemetryBufferService),
- the queue processor (MeterTelemetryProcessor / VehicleTelemetryProcessor),
- the session service (ChargingSessionService),
- the analytics aggregator, in both of its variants: the one computing
  MAX-MIN over session-overlap-correlated meter rows, and the one in
  analytics.service.ts computing SUM over rows of meters with an
  active-flagged mapping.

Numeric database values are rationals (SQL numeric); timestamps are
integers (epoch milliseconds); device ids are strings.
-/

namespace SmartEV

/-- Timestamps: epoch milliseconds. -/
abbrev Time := Int

/-- Payload of a meter telemetry message (MeterTelemetryDto). -/
structure MeterTelemetryDto where
  meterId : String
  kwhConsumedAc : ℚ
  voltage : ℚ
  timestamp : Time
deriving DecidableEq, Repr

/-- Payload of a vehicle telemetry message (VehicleTelemetryDto). -/
structure VehicleTelemetryDto where
  vehicleId : String
  soc : ℚ
  kwhDeliveredDc : ℚ
  batteryTemp : ℚ
  timestamp : Time
deriving DecidableEq, Repr

/-! JavaScript Map semantics, used by the writer's in-memory dedup:
map.set(k, v) replaces the value of an existing key in place, otherwise
appends the new key at the end; Array.from(map.values()) lists values in
key-insertion order. -/

/-- One map.set step on an association list. -/
def jsMapInsert (k : String) (v : α) : List (String × α) → List (String × α)
  | [] => [(k, v)]
  | (k', v') :: rest =>
      if k = k' then (k', v) :: rest else (k', v') :: jsMapInsert k v rest

/-- Building a Map with map.set over a list, keyed by key, storing val. -/
def jsMapOfList (key : α → String) (val : α → β) (l : List α) :
    List (String × β) :=
  l.foldl (fun m r => jsMapInsert (key r) (val r) m) []

/-- Map.get semantics on the association list. -/
def assocLookup (k : String) : List (String × α) → Option α
  | [] => none
  | (k', v) :: rest => if k = k' then some v else assocLookup k rest

/-- The writer's dedup: build a Map keyed by device id, then take its
values; the last record seen for each key wins. -/
def dedupeByKey (key : α → String) (l : List α) : List α :=
  (jsMapOfList key id l).map Prod.snd

/-! Database model: hot-state tables as association lists keyed by device
id, history tables as append-only lists, the session mapping table as a
row list. -/

/-- Row of the meter_state hot table (non-key columns). -/
structure MeterStateRow where
  kwhConsumedAc : ℚ
  voltage : ℚ
  lastUpdated : Time
deriving DecidableEq, Repr

/-- Row of the vehicle_state hot table (non-key columns). -/
structure VehicleStateRow where
  soc : ℚ
  kwhDeliveredDc : ℚ
  batteryTemp : ℚ
  lastUpdated : Time
deriving DecidableEq, Repr

/-- Row of the meter_telemetry history table. -/
structure MeterHistoryRow where
  meterId : String
  kwhConsumedAc : ℚ
  voltage : ℚ
  recordedAt : Time
deriving DecidableEq, Repr

/-- Row of the vehicle_telemetry history table. -/
structure VehicleHistoryRow where
  vehicleId : String
  soc : ℚ
  kwhDeliveredDc : ℚ
  batteryTemp : ℚ
  recordedAt : Time
deriving DecidableEq, Repr

/-- Row of the vehicle_meter_mapping session table. -/
structure SessionRow where
  vehicleId : String
  meterId : String
  mappedAt : Time
  unmappedAt : Option Time
  isActive : Bool
deriving DecidableEq, Repr

/-- The database state touched by the embedded components. -/
structure Db where
  meterState : List (String × MeterStateRow)
  vehicleState : List (String × VehicleStateRow)
  meterHistory : List MeterHistoryRow
  vehicleHistory : List VehicleHistoryRow
  sessions : List SessionRow
deriving DecidableEq, Repr

/-- A database with no rows. -/
def emptyDb : Db := ⟨[], [], [], [], []⟩

/-- Observable side effects of one writer call: whether a pool connection
was acquired, and how many BEGINs, bulk statements, COMMITs and ROLLBACKs
were issued. -/
structure IngestEffects where
  connected : Bool
  begins : Nat
  statements : Nat
  commits : Nat
  rollbacks : Nat
deriving DecidableEq, Repr

/-- Effects of a call that touched the database not at all. -/
def IngestEffects.nothing : IngestEffects := ⟨false, 0, 0, 0, 0⟩

/-- Hot-state columns carried by a meter sample. -/
def MeterTelemetryDto.toStateRow (d : MeterTelemetryDto) : MeterStateRow :=
  ⟨d.kwhConsumedAc, d.voltage, d.timestamp⟩

/-- History row written for a meter sample. -/
def MeterTelemetryDto.toHistoryRow (d : MeterTelemetryDto) : MeterHistoryRow :=
  ⟨d.meterId, d.kwhConsumedAc, d.voltage, d.timestamp⟩

/-- Hot-state columns carried by a vehicle sample. -/
def VehicleTelemetryDto.toStateRow (d : VehicleTelemetryDto) : VehicleStateRow :=
  ⟨d.soc, d.kwhDeliveredDc, d.batteryTemp, d.timestamp⟩

/-- History row written for a vehicle sample. -/
def VehicleTelemetryDto.toHistoryRow (d : VehicleTelemetryDto) :
    VehicleHistoryRow :=
  ⟨d.vehicleId, d.soc, d.kwhDeliveredDc, d.batteryTemp, d.timestamp⟩

/-- The bulk UPSERT ... ON CONFLICT DO UPDATE into meter_state, row by row
in array order: replace the non-key columns on conflict, insert otherwise. -/
def upsertMeterStates (s : List (String × MeterStateRow))
    (rows : List MeterTelemetryDto) : List (String × MeterStateRow) :=
  rows.foldl (fun s r => jsMapInsert r.meterId r.toStateRow s) s

/-- The bulk UPSERT into vehicle_state. -/
def upsertVehicleStates (s : List (String × VehicleStateRow))
    (rows : List VehicleTelemetryDto) : List (String × VehicleStateRow) :=
  rows.foldl (fun s r => jsMapInsert r.vehicleId r.toStateRow s) s

/-- IngestionService.ingestMeterDataBatch (deduplicating variant).
Empty batches return before touching the pool. Otherwise the batch is
deduped by meter id (Map insertion, last-seen wins), then one transaction
runs the hot-state upsert over the deduped rows and the history insert
over all original rows. txOk models whether the transaction commits; on
failure everything rolls back and the error is rethrown (ok = false). -/
def ingestMeterDataBatch (txOk : Bool) (db : Db)
    (batch : List MeterTelemetryDto) : Db × IngestEffects × Bool :=
  if batch.isEmpty then (db, IngestEffects.nothing, true)
  else
    let uniqueData := dedupeByKey (fun d => d.meterId) batch
    if txOk then
      ({ db with
          meterState := upsertMeterStates db.meterState uniqueData,
          meterHistory :=
            db.meterHistory ++ batch.map MeterTelemetryDto.toHistoryRow },
        ⟨true, 1, 2, 1, 0⟩, true)
    else
      (db, ⟨true, 1, 2, 0, 1⟩, false)

/-- IngestionService.ingestVehicleDataBatch (deduplicating variant). -/
def ingestVehicleDataBatch (txOk : Bool) (db : Db)
    (batch : List VehicleTelemetryDto) : Db × IngestEffects × Bool :=
  if batch.isEmpty then (db, IngestEffects.nothing, true)
  else
    let uniqueData := dedupeByKey (fun d => d.vehicleId) batch
    if txOk then
      ({ db with
          vehicleState := upsertVehicleStates db.vehicleState uniqueData,
          vehicleHistory :=
            db.vehicleHistory ++ batch.map VehicleTelemetryDto.toHistoryRow },
        ⟨true, 1, 2, 1, 0⟩, true)
    else
      (db, ⟨true, 1, 2, 0, 1⟩, false)

/-! Session service (ChargingSessionService). -/

/-- Errors the session service can raise. -/
inductive SessionError where
  | conflict
  | notFound
deriving DecidableEq, Repr

/-- Rows the startSession existence check would return: the vehicle's
active session rows. -/
def activeSessionsFor (db : Db) (v : String) : List SessionRow :=
  db.sessions.filter (fun r => r.vehicleId == v && r.isActive)

/-- ChargingSessionService.startSession: conflict if the vehicle already
has an active row, otherwise insert a new row with active = true. -/
def startSession (db : Db) (v m : String) (now : Time) :
    Except SessionError Db :=
  if (activeSessionsFor db v).isEmpty then
    Except.ok { db with sessions := db.sessions ++ [⟨v, m, now, none, true⟩] }
  else Except.error SessionError.conflict

/-- Effect of the endSession UPDATE on one row. -/
def closeSessionRow (v : String) (now : Time) (r : SessionRow) : SessionRow :=
  if r.vehicleId == v && r.isActive then
    { r with isActive := false, unmappedAt := some now }
  else r

/-- ChargingSessionService.endSession: close every active row of the
vehicle; not-found if the UPDATE matched no row. -/
def endSession (db : Db) (v : String) (now : Time) : Except SessionError Db :=
  if (activeSessionsFor db v).isEmpty then Except.error SessionError.notFound
  else Except.ok { db with sessions := db.sessions.map (closeSessionRow v now) }

/-- ChargingSessionService.startBatchSessions: zip the two id lists to
their common length and insert one active row per pair, with no check for
existing active sessions. Returns the inserted count. -/
def startBatchSessions (db : Db) (vs ms : List String) (now : Time) :
    Db × Nat :=
  let count := min vs.length ms.length
  let pairs := (vs.take count).zip (ms.take count)
  ({ db with sessions :=
      db.sessions ++ pairs.map (fun p => ⟨p.1, p.2, now, none, true⟩) },
    count)

/-- Effect of the endBatchSessions UPDATE on one row. -/
def closeBatchRow (vs : List String) (now : Time) (r : SessionRow) :
    SessionRow :=
  if vs.contains r.vehicleId && r.isActive then
    { r with isActive := false, unmappedAt := some now }
  else r

/-- ChargingSessionService.endBatchSessions: best-effort close of the
active rows of the listed vehicles; returns the updated row count. -/
def endBatchSessions (db : Db) (vs : List String) (now : Time) : Db × Nat :=
  (({ db with sessions := db.sessions.map (closeBatchRow vs now) }),
    db.sessions.countP (fun r => vs.contains r.vehicleId && r.isActive))

/-- The session operations of the service. -/
inductive SessionOp where
  | start (v m : String) (now : Time)
  | stop (v : String) (now : Time)
  | batchStart (vs ms : List String) (now : Time)
  | batchEnd (vs : List String) (now : Time)
deriving DecidableEq, Repr

/-- Whether an operation is the bulk start. -/
def SessionOp.isBatchStart : SessionOp → Bool
  | SessionOp.batchStart _ _ _ => true
  | _ => false

/-- Running one operation: a thrown conflict or not-found leaves the
database unchanged. -/
def execSessionOp (db : Db) : SessionOp → Db
  | SessionOp.start v m now =>
      match startSession db v m now with
      | Except.ok db' => db'
      | Except.error _ => db
  | SessionOp.stop v now =>
      match endSession db v now with
      | Except.ok db' => db'
      | Except.error _ => db
  | SessionOp.batchStart vs ms now => (startBatchSessions db vs ms now).1
  | SessionOp.batchEnd vs now => (endBatchSessions db vs now).1

/-- Running a sequence of session operations. -/
def execSessionOps (db : Db) (ops : List SessionOp) : Db :=
  ops.foldl execSessionOp db

/-- The session invariant: at most one active row per vehicle id. -/
def sessionInvariant (db : Db) : Prop :=
  ∀ v : String, (activeSessionsFor db v).length ≤ 1

/-! Analytics aggregator. Both variants share the DC-side row selection
and the post-processing; they differ in the AC aggregate and its session
correlation predicate.

The connection pool configures no custom type parsers, so the driver
delivers NUMERIC/DECIMAL columns and the bigint result of COUNT(*) as
JavaScript strings (the text form of the number); the services convert
them back with parseFloat/parseInt. PgText models such a delivered value
by its numeric content together with the three behaviors the services
rely on: parseFloat/parseInt recover the value, the string is non-empty
and hence truthy even for a zero value, and a strict-equality comparison
with a number is false because strict equality never coerces across
types. -/

/-- A numeric column value as delivered by the driver: the text form of
the number. -/
structure PgText where
  val : ℚ
deriving DecidableEq, Repr

/-- parseFloat applied to a numeric string from the driver. -/
def jsParseFloatPg (t : PgText) : ℚ := t.val

/-- parseInt applied to an integer string from the driver. -/
def jsParseIntPg (t : PgText) : ℚ := t.val

/-- Strict equality between a string from the driver and a number:
always false, since strict equality compares types first and never
coerces. -/
def jsStrictEqNum (_t : PgText) (_n : ℚ) : Bool := false

/-- JavaScript truthiness of a nullable numeric column: SQL NULL arrives
as null (falsy); any delivered numeric string is non-empty and truthy,
including the text of 0. -/
def jsTruthyPg : Option PgText → Bool
  | none => false
  | some _ => true

/-- parseFloat(x) || 0 on a nullable numeric column: NULL parses to NaN,
which the fallback turns into 0; a parsed 0 also stays 0. -/
def jsParseFloatOrZero : Option PgText → ℚ
  | none => 0
  | some t => t.val

/-- parseFloat on a nullable numeric column with no fallback; none
models the NaN produced for NULL. -/
def jsParseFloatOpt : Option PgText → Option ℚ
  | none => none
  | some t => some t.val

/-- Result shape of getVehiclePerformance. avgBatteryTemp is the raw
parseFloat result (NaN, modelled none, when the window was empty);
dataPoints is the parseInt of the count string. -/
structure PerformanceMetrics where
  vehicleId : String
  totalAcConsumption : ℚ
  totalDcDelivery : ℚ
  efficiencyRatio : ℚ
  avgBatteryTemp : Option ℚ
  dataPoints : ℚ
deriving DecidableEq, Repr

/-- MAX over the numeric column of a row list (none when empty). -/
def listMax : List ℚ → Option ℚ
  | [] => none
  | q :: qs =>
      match listMax qs with
      | none => some q
      | some m => some (max q m)

/-- MIN over the numeric column of a row list (none when empty). -/
def listMin : List ℚ → Option ℚ
  | [] => none
  | q :: qs =>
      match listMin qs with
      | none => some q
      | some m => some (min q m)

/-- COALESCE(MAX(col) - MIN(col), 0) over a column list. -/
def maxMinusMin (l : List ℚ) : ℚ :=
  match listMax l, listMin l with
  | some a, some b => a - b
  | _, _ => 0

/-- Rows of vehicle_telemetry selected by the vehicle_data subquery:
the vehicle's rows recorded inside the window. -/
def dcRowsInWindow (db : Db) (vid : String) (s e : Time) :
    List VehicleHistoryRow :=
  db.vehicleHistory.filter
    (fun r => r.vehicleId == vid && decide (s ≤ r.recordedAt)
      && decide (r.recordedAt ≤ e))

/-- The session-overlap predicate of the MAX-MIN variant:
mapped_at <= window_end AND (unmapped_at IS NULL OR unmapped_at >=
window_start). -/
def overlapOk (vm : SessionRow) (s e : Time) : Bool :=
  decide (vm.mappedAt ≤ e) &&
    (match vm.unmappedAt with
     | none => true
     | some u => decide (s ≤ u))

/-- Column yielded by the meter_data INNER JOIN of the MAX-MIN variant:
one kwh_consumed_ac value per (history row, matching mapping row) pair,
with the window bounds and the overlap predicate in the WHERE clause. -/
def acJoinedKwh009 (db : Db) (vid : String) (s e : Time) : List ℚ :=
  db.meterHistory.flatMap (fun m =>
    (db.sessions.filter (fun vm =>
        vm.meterId == m.meterId && vm.vehicleId == vid
          && overlapOk vm s e
          && decide (s ≤ m.recordedAt) && decide (m.recordedAt ≤ e))).map
      (fun _ => m.kwhConsumedAc))

/-- Column yielded by the meter_data INNER JOIN of the analytics.service.ts
variant: the correlation predicate is vm.is_active = TRUE, with no check
that the session interval overlapped the window. -/
def acJoinedKwhMain (db : Db) (vid : String) (s e : Time) : List ℚ :=
  db.meterHistory.flatMap (fun m =>
    (db.sessions.filter (fun vm =>
        vm.meterId == m.meterId && vm.vehicleId == vid && vm.isActive
          && decide (s ≤ m.recordedAt) && decide (m.recordedAt ≤ e))).map
      (fun _ => m.kwhConsumedAc))

/-- Total AC consumption computed by the MAX-MIN variant. -/
def totalAc009 (db : Db) (vid : String) (s e : Time) : ℚ :=
  maxMinusMin (acJoinedKwh009 db vid s e)

/-- Total AC consumption computed by the analytics.service.ts variant:
COALESCE(SUM(m.kwh_consumed_ac), 0) over the joined rows. -/
def totalAcMain (db : Db) (vid : String) (s e : Time) : ℚ :=
  (acJoinedKwhMain db vid s e).sum

/-- The one row returned by the performance query: the CROSS JOIN of two
single-row aggregate subqueries always yields exactly one row. Aggregates
of an empty selection are SQL NULL (none); delivered values are in text
form. -/
structure PerfQueryRow where
  total_dc : Option PgText
  avg_temp : Option PgText
  dc_count : PgText
  total_ac : PgText
deriving DecidableEq, Repr

/-- The performance query of the MAX-MIN variant: vehicle_data computes
MAX-MIN, AVG and COUNT over the vehicle's window rows; meter_data
computes COALESCE(MAX-MIN, 0) over the overlap-correlated meter rows. -/
def runPerfQuery009 (db : Db) (vid : String) (s e : Time) : PerfQueryRow :=
  let dcs := dcRowsInWindow db vid s e
  let dcKwh := dcs.map (fun r => r.kwhDeliveredDc)
  { total_dc :=
      match listMax dcKwh, listMin dcKwh with
      | some a, some b => some ⟨a - b⟩
      | _, _ => none
    avg_temp :=
      if dcs.length = 0 then none
      else some ⟨(dcs.map (fun r => r.batteryTemp)).sum / dcs.length⟩
    dc_count := ⟨dcs.length⟩
    total_ac := ⟨totalAc009 db vid s e⟩ }

/-- The performance query of analytics.service.ts: SUM-based aggregates
on both sides and the is_active correlation; SUM of an empty selection
is NULL. -/
def runPerfQueryMain (db : Db) (vid : String) (s e : Time) : PerfQueryRow :=
  let dcs := dcRowsInWindow db vid s e
  { total_dc :=
      if dcs.length = 0 then none
      else some ⟨(dcs.map (fun r => r.kwhDeliveredDc)).sum⟩
    avg_temp :=
      if dcs.length = 0 then none
      else some ⟨(dcs.map (fun r => r.batteryTemp)).sum / dcs.length⟩
    dc_count := ⟨dcs.length⟩
    total_ac := ⟨totalAcMain db vid s e⟩ }

/-- The TypeScript post-processing shared by both variants. The result
set always holds one row, so !result.rows.length is false, and
row.dc_count === 0 compares the bigint count string with the number 0
under strict equality, which is false for every count — so the
NotFoundException branch never fires and the function always returns a
metrics object (dataPoints 0 and NaN average temperature when the window
was empty). -/
def perfFromRow (vid : String) (row : PerfQueryRow) :
    Except Unit PerformanceMetrics :=
  if jsStrictEqNum row.dc_count 0 then Except.error ()
  else
    let totalAc := jsParseFloatOrZero (some row.total_ac)
    let totalDc := jsParseFloatOrZero row.total_dc
    Except.ok
      { vehicleId := vid
        totalAcConsumption := totalAc
        totalDcDelivery := totalDc
        efficiencyRatio := if 0 < totalAc then totalDc / totalAc else 0
        avgBatteryTemp := jsParseFloatOpt row.avg_temp
        dataPoints := jsParseIntPg row.dc_count }

/-- getVehiclePerformance, MAX-MIN variant. -/
def getVehiclePerformance009 (db : Db) (vid : String) (s e : Time) :
    Except Unit PerformanceMetrics :=
  perfFromRow vid (runPerfQuery009 db vid s e)

/-- getVehiclePerformance as written in analytics.service.ts. -/
def getVehiclePerformanceMain (db : Db) (vid : String) (s e : Time) :
    Except Unit PerformanceMetrics :=
  perfFromRow vid (runPerfQueryMain db vid s e)

/-- Total AC consumption in the words of the claim: max minus min of
kwh_consumed_ac over meter history rows recorded inside the window whose
meter had a session with the vehicle overlapping the window. -/
def claimTotalAcConsumption (db : Db) (vid : String) (s e : Time) : ℚ :=
  maxMinusMin
    ((db.meterHistory.filter (fun m =>
        decide (s ≤ m.recordedAt) && decide (m.recordedAt ≤ e)
          && db.sessions.any (fun vm =>
              vm.vehicleId == vid && vm.meterId == m.meterId
                && overlapOk vm s e))).map
      (fun m => m.kwhConsumedAc))

/-! Queue processor (MeterTelemetryProcessor; VehicleTelemetryProcessor is
identical up to the stream). One state per stream: the durable waiting
queue, the last successful process time, the in-flight flag, and the
database. -/

/-- BATCH_SIZE of the processor. -/
def BATCH_SIZE : Nat := 1000

/-- CHECK_INTERVAL_MS: period of the trigger-checking timer. -/
def CHECK_INTERVAL_MS : Nat := 500

/-- FALLBACK_INTERVAL_MS: the time trigger threshold. -/
def FALLBACK_INTERVAL_MS : Time := 10000

/-- State of the meter-stream processor. -/
structure ProcessorState where
  queue : List MeterTelemetryDto
  lastProcessTime : Time
  isProcessing : Bool
  db : Db
deriving DecidableEq, Repr

/-- MeterTelemetryProcessor.processBatch at time now: take up to
BATCH_SIZE waiting jobs and hand them to the writer. On success the jobs
are removed and lastProcessTime is set; on failure the error is caught
and only logged: the jobs stay queued, the transaction rolled back, and
lastProcessTime is not advanced. Returns the new state and the batch
handed to the writer, if any. -/
def processBatch (txOk : Bool) (now : Time) (s : ProcessorState) :
    ProcessorState × Option (List MeterTelemetryDto) :=
  if s.isProcessing then (s, none)
  else
    let jobs := s.queue.take BATCH_SIZE
    if jobs.isEmpty then (s, none)
    else
      let db' := (ingestMeterDataBatch txOk s.db jobs).1
      if txOk then
        ({ s with db := db', queue := s.queue.drop jobs.length,
                  lastProcessTime := now }, some jobs)
      else
        ({ s with db := db' }, some jobs)

/-- One firing of the periodic check (startPeriodicProcessing): skip when
a batch is in flight; process immediately when the waiting count reaches
BATCH_SIZE; process whatever waits when the queue is non-empty and
FALLBACK_INTERVAL_MS has elapsed since the last completed batch. -/
def processorTick (txOk : Bool) (now : Time) (s : ProcessorState) :
    ProcessorState × Option (List MeterTelemetryDto) :=
  if s.isProcessing then (s, none)
  else if BATCH_SIZE ≤ s.queue.length then processBatch txOk now s
  else if 0 < s.queue.length ∧ FALLBACK_INTERVAL_MS ≤ now - s.lastProcessTime
    then processBatch txOk now s
  else (s, none)

/-! Buffer-based intake (TelemetryBufferService). -/

/-- State of the buffer service: the two in-memory buffers, the
isFlushing latch, and the database behind the ingestion service. -/
structure BufferState where
  meterBuffer : List MeterTelemetryDto
  vehicleBuffer : List VehicleTelemetryDto
  isFlushing : Bool
  db : Db
deriving DecidableEq, Repr

/-- TelemetryBufferService.flush: skip when already flushing or both
buffers are empty; otherwise swap both buffers out, run the two batch
writes (both promises are started, so each stream commits or rolls back
on its own with meterOk / vehicleOk), catch and log any error, and clear
the isFlushing latch. The swapped-out buffers are never restored. -/
def flushBuffers (meterOk vehicleOk : Bool) (s : BufferState) : BufferState :=
  if s.isFlushing then s
  else if s.meterBuffer.isEmpty && s.vehicleBuffer.isEmpty then s
  else
    let meterBatch := s.meterBuffer
    let vehicleBatch := s.vehicleBuffer
    let db1 := if meterBatch.isEmpty then s.db
      else (ingestMeterDataBatch meterOk s.db meterBatch).1
    let db2 := if vehicleBatch.isEmpty then db1
      else (ingestVehicleDataBatch vehicleOk db1 vehicleBatch).1
    { meterBuffer := [], vehicleBuffer := [], isFlushing := false, db := db2 }

/-! Fleet snapshot (AnalyticsService.getAllVehicleStates). -/

/-- A row of the snapshot query result: vehicle_state columns plus the
meter_state columns of the LEFT JOIN through the active mapping (null
when the vehicle has no active session or the meter has no state row). -/
structure SnapshotRow where
  vehicleId : String
  soc : ℚ
  kwhDeliveredDc : ℚ
  batteryTemp : ℚ
  lastUpdated : Time
  meterKwh : Option PgText
  meterVolt : Option PgText
  meterLast : Option Time
deriving DecidableEq, Repr

/-- Output element of getAllVehicleStates (the VehicleState interface). -/
structure VehicleStateOut where
  vehicleId : String
  soc : ℚ
  kwhDeliveredDc : ℚ
  batteryTemp : ℚ
  lastUpdated : Time
  meterKwhConsumedAc : Option ℚ
  meterVoltage : Option ℚ
  meterLastUpdated : Option Time
deriving DecidableEq, Repr

/-- The row mapping of getAllVehicleStates: the nullable meter columns
arrive as numeric strings or null and go through a truthiness test
before parseFloat, so only null maps to undefined — a delivered zero is
a non-empty string, truthy, and parses to 0; the non-null columns go
through parseFloat unconditionally, which recovers their values; the
timestamp column is null or a truthy Date. -/
def mapSnapshotRow (r : SnapshotRow) : VehicleStateOut :=
  { vehicleId := r.vehicleId
    soc := r.soc
    kwhDeliveredDc := r.kwhDeliveredDc
    batteryTemp := r.batteryTemp
    lastUpdated := r.lastUpdated
    meterKwhConsumedAc :=
      if jsTruthyPg r.meterKwh then r.meterKwh.map jsParseFloatPg else none
    meterVoltage :=
      if jsTruthyPg r.meterVolt then r.meterVolt.map jsParseFloatPg else none
    meterLastUpdated := r.meterLast }

/-- The LEFT JOIN of the snapshot query: each vehicle_state row joined to
its active mappings (one output row per active mapping, a null-extended
row when there is none), then LEFT JOIN to meter_state. -/
def snapshotJoin (db : Db) : List SnapshotRow :=
  db.vehicleState.flatMap (fun p =>
    let vs := p.2
    let mappings := db.sessions.filter
      (fun r => r.vehicleId == p.1 && r.isActive)
    if mappings.isEmpty then
      [⟨p.1, vs.soc, vs.kwhDeliveredDc, vs.batteryTemp, vs.lastUpdated,
        none, none, none⟩]
    else
      mappings.map (fun vm =>
        match assocLookup vm.meterId db.meterState with
        | none =>
            ⟨p.1, vs.soc, vs.kwhDeliveredDc, vs.batteryTemp, vs.lastUpdated,
              none, none, none⟩
        | some ms =>
            ⟨p.1, vs.soc, vs.kwhDeliveredDc, vs.batteryTemp, vs.lastUpdated,
              some ⟨ms.kwhConsumedAc⟩, some ⟨ms.voltage⟩,
              some ms.lastUpdated⟩))

/-- Insertion step for ORDER BY last_updated DESC. -/
def insertByLastUpdatedDesc (r : SnapshotRow) :
    List SnapshotRow → List SnapshotRow
  | [] => [r]
  | x :: xs =>
      if x.lastUpdated ≤ r.lastUpdated then r :: x :: xs
      else x :: insertByLastUpdatedDesc r xs

/-- ORDER BY last_updated DESC as an insertion sort. -/
def sortByLastUpdatedDesc (l : List SnapshotRow) : List SnapshotRow :=
  l.foldr insertByLastUpdatedDesc []

/-- AnalyticsService.getAllVehicleStates: the joined rows ordered by
last_updated descending, limited, and mapped through the truthy checks. -/
def getAllVehicleStates (db : Db) (limit : Nat) : List VehicleStateOut :=
  ((sortByLastUpdatedDesc (snapshotJoin db)).take limit).map mapSnapshotRow

/-! Lemmas about the Map-based dedup. -/

theorem assocLookup_jsMapInsert (k k' : String) (v : α)
    (m : List (String × α)) :
    assocLookup k (jsMapInsert k' v m) =
      if k = k' then some v else assocLookup k m := by
  induction m with
  | nil =>
      by_cases h : k = k' <;> simp [jsMapInsert, assocLookup, h]
  | cons hd tl ih =>
      obtain ⟨k'', v'⟩ := hd
      by_cases h1 : k' = k''
      · subst h1
        by_cases h2 : k = k' <;> simp [jsMapInsert, assocLookup, h2]
      · by_cases h2 : k = k''
        · have hkk : k ≠ k' := by
            subst h2; exact fun hh => h1 hh.symm
          simp [jsMapInsert, assocLookup, h1, Ne.symm h1, h2, hkk]
        · simp [jsMapInsert, assocLookup, h1, h2, ih]

theorem mem_jsMapInsert (p : String × α) (k : String) (v : α)
    (m : List (String × α)) (hp : p ∈ jsMapInsert k v m) :
    p = (k, v) ∨ p ∈ m := by
  induction m with
  | nil =>
      simp [jsMapInsert] at hp
      exact Or.inl hp
  | cons hd tl ih =>
      obtain ⟨k'', v'⟩ := hd
      by_cases h1 : k = k''
      · subst h1
        simp [jsMapInsert] at hp
        rcases hp with hp | hp
        · exact Or.inl (by simp [hp])
        · exact Or.inr (by simp [hp])
      · simp [jsMapInsert, h1] at hp
        rcases hp with hp | hp
        · exact Or.inr (by simp [hp])
        · rcases ih hp with h | h
          · exact Or.inl h
          · exact Or.inr (by simp [h])

theorem keys_jsMapInsert (k : String) (v : α) (m : List (String × α)) :
    (jsMapInsert k v m).map Prod.fst =
      if k ∈ m.map Prod.fst then m.map Prod.fst
      else m.map Prod.fst ++ [k] := by
  induction m with
  | nil => simp [jsMapInsert]
  | cons hd tl ih =>
      obtain ⟨k'', v'⟩ := hd
      by_cases h1 : k = k''
      · subst h1
        simp [jsMapInsert]
      · by_cases h2 : k ∈ tl.map Prod.fst <;>
          simp [jsMapInsert, h1, Ne.symm h1, h2, ih]

theorem nodup_keys_jsMapInsert (k : String) (v : α)
    (m : List (String × α)) (h : (m.map Prod.fst).Nodup) :
    ((jsMapInsert k v m).map Prod.fst).Nodup := by
  rw [keys_jsMapInsert]
  split
  · exact h
  · next hk => simp [List.nodup_append, h, hk]

theorem mem_keys_jsMapInsert (x k : String) (v : α)
    (m : List (String × α)) :
    x ∈ (jsMapInsert k v m).map Prod.fst ↔
      x ∈ m.map Prod.fst ∨ x = k := by
  rw [keys_jsMapInsert]
  split
  · next hk =>
      constructor
      · exact Or.inl
      · rintro (hx | rfl)
        · exact hx
        · exact hk
  · simp

theorem assocLookup_foldl_insert (key : α → String) (val : α → β)
    (l : List α) (m0 : List (String × β)) (k : String) :
    assocLookup k
        (l.foldl (fun m r => jsMapInsert (key r) (val r) m) m0) =
      match (l.filter (fun r => key r == k)).getLast? with
      | some r => some (val r)
      | none => assocLookup k m0 := by
  induction l generalizing m0 with
  | nil => simp
  | cons hd tl ih =>
      rw [List.foldl_cons, ih, List.filter_cons]
      by_cases h : key hd = k
      · simp only [h, beq_self_eq_true, if_true]
        cases hft : tl.filter (fun r => key r == k) with
        | nil =>
            simp [hft, assocLookup_jsMapInsert, h]
        | cons x xs =>
            rw [List.getLast?_cons_cons]
            cases hgl : (x :: xs).getLast? with
            | none =>
                rw [List.getLast?_eq_none_iff] at hgl
                exact absurd hgl (by simp)
            | some r => simp
      · have hb : (key hd == k) = false := by simp [h]
        simp only [hb, Bool.false_eq_true, if_false]
        cases hft : tl.filter (fun r => key r == k) with
        | nil =>
            have hkk : k ≠ key hd := fun hh => h hh.symm
            simp [hft, assocLookup_jsMapInsert, hkk]
        | cons x xs =>
            cases hgl : (x :: xs).getLast? with
            | none =>
                rw [List.getLast?_eq_none_iff] at hgl
                exact absurd hgl (by simp)
            | some r => simp

theorem nodup_keys_foldl_insert (key : α → String) (val : α → β)
    (l : List α) (m0 : List (String × β))
    (h : (m0.map Prod.fst).Nodup) :
    ((l.foldl (fun m r => jsMapInsert (key r) (val r) m) m0).map
      Prod.fst).Nodup := by
  induction l generalizing m0 with
  | nil => exact h
  | cons hd tl ih =>
      exact ih _ (nodup_keys_jsMapInsert _ _ _ h)

theorem mem_keys_foldl_insert (key : α → String) (val : α → β)
    (l : List α) (m0 : List (String × β)) (x : String) :
    x ∈ (l.foldl (fun m r => jsMapInsert (key r) (val r) m) m0).map
        Prod.fst ↔
      x ∈ m0.map Prod.fst ∨ x ∈ l.map key := by
  induction l generalizing m0 with
  | nil => simp
  | cons hd tl ih =>
      rw [List.foldl_cons, ih, mem_keys_jsMapInsert]
      simp [or_assoc, or_comm, or_left_comm]

theorem mem_foldl_insert (key : α → String) (val : α → β)
    (l : List α) (m0 : List (String × β)) (p : String × β)
    (hp : p ∈ l.foldl (fun m r => jsMapInsert (key r) (val r) m) m0) :
    p ∈ m0 ∨ ∃ r ∈ l, p = (key r, val r) := by
  induction l generalizing m0 with
  | nil => exact Or.inl hp
  | cons hd tl ih =>
      rcases ih _ hp with h | h
      · rcases mem_jsMapInsert p _ _ _ h with h' | h'
        · exact Or.inr ⟨hd, by simp, h'⟩
        · exact Or.inl h'
      · obtain ⟨r, hr, hpr⟩ := h
        exact Or.inr ⟨r, by simp [hr], hpr⟩

theorem nodup_keys_jsMapOfList (key : α → String) (val : α → β)
    (l : List α) : ((jsMapOfList key val l).map Prod.fst).Nodup :=
  nodup_keys_foldl_insert key val l [] (by simp)

theorem mem_keys_jsMapOfList (key : α → String) (val : α → β)
    (l : List α) (x : String) :
    x ∈ (jsMapOfList key val l).map Prod.fst ↔ x ∈ l.map key := by
  rw [jsMapOfList, mem_keys_foldl_insert]
  simp

theorem fst_eq_key_of_mem_jsMapOfList (key : α → String) (l : List α)
    (p : String × α) (hp : p ∈ jsMapOfList key id l) : p.1 = key p.2 := by
  rcases mem_foldl_insert key id l [] p hp with h | ⟨r, _, hpr⟩
  · simp at h
  · simp [hpr]

theorem filter_map_snd_eq (key : α → String) (k : String)
    (M : List (String × α)) (hM : ∀ q ∈ M, q.1 = key q.2) :
    (M.map Prod.snd).filter (fun r => key r == k) =
      (M.filter (fun q => q.1 == k)).map Prod.snd := by
  induction M with
  | nil => simp
  | cons hd tl ih =>
      have hhd : hd.1 = key hd.2 := hM hd (by simp)
      have htl : ∀ q ∈ tl, q.1 = key q.2 := fun q hq => hM q (by simp [hq])
      by_cases h : key hd.2 = k <;>
        simp [List.filter_cons, hhd, h, ih htl]

theorem filter_keys_of_nodup (k : String) (M : List (String × α))
    (h : (M.map Prod.fst).Nodup) :
    M.filter (fun q => q.1 == k) =
      match assocLookup k M with
      | some v => [(k, v)]
      | none => [] := by
  induction M with
  | nil => simp [assocLookup]
  | cons hd tl ih =>
      obtain ⟨k', v⟩ := hd
      simp only [List.map_cons, List.nodup_cons] at h
      obtain ⟨hnot, htl⟩ := h
      by_cases hk : k = k'
      · subst hk
        have hft : tl.filter (fun q => q.1 == k) = [] := by
          rw [List.filter_eq_nil_iff]
          intro q hq
          simp only [beq_iff_eq]
          intro hq1
          exact hnot (List.mem_map.mpr ⟨q, hq, hq1⟩)
        simp [List.filter_cons, assocLookup, hft]
      · simp [List.filter_cons, assocLookup, hk, Ne.symm hk, ih htl]

theorem dedupeByKey_filter_getLast (key : α → String) (l : List α)
    (k : String) :
    ((dedupeByKey key l).filter (fun r => key r == k)).getLast? =
      (l.filter (fun r => key r == k)).getLast? := by
  unfold dedupeByKey
  rw [filter_map_snd_eq key k _
        (fun q hq => fst_eq_key_of_mem_jsMapOfList key l q hq),
      filter_keys_of_nodup k _ (nodup_keys_jsMapOfList key id l)]
  have hlk := assocLookup_foldl_insert key id l [] k
  simp only [id_eq] at hlk
  rw [jsMapOfList]
  simp only [id_eq]
  rw [hlk]
  cases hfl : (l.filter (fun r => key r == k)).getLast? with
  | some r => simp [assocLookup]
  | none => simp [assocLookup]

theorem dedupeByKey_length (key : α → String) (l : List α) :
    (dedupeByKey key l).length = (l.map key).toFinset.card := by
  unfold dedupeByKey
  have h1 : ((jsMapOfList key id l).map Prod.fst).Nodup :=
    nodup_keys_jsMapOfList key id l
  have h2 : ((jsMapOfList key id l).map Prod.fst).toFinset =
      (l.map key).toFinset := by
    apply Finset.ext
    intro x
    simp only [List.mem_toFinset]
    exact mem_keys_jsMapOfList key id l x
  calc ((jsMapOfList key id l).map Prod.snd).length
      = ((jsMapOfList key id l).map Prod.fst).length := by
        rw [List.length_map, List.length_map]
    _ = ((jsMapOfList key id l).map Prod.fst).toFinset.card :=
        (List.toFinset_card_of_nodup h1).symm
    _ = (l.map key).toFinset.card := by rw [h2]

theorem assocLookup_upsertMeterStates (s0 : List (String × MeterStateRow))
    (rows : List MeterTelemetryDto) (d : String) :
    assocLookup d (upsertMeterStates s0 rows) =
      match (rows.filter (fun r => r.meterId == d)).getLast? with
      | some r => some r.toStateRow
      | none => assocLookup d s0 := by
  unfold upsertMeterStates
  have h := assocLookup_foldl_insert (fun r => r.meterId)
    MeterTelemetryDto.toStateRow rows s0 d
  cases hl : (rows.filter (fun r => r.meterId == d)).getLast? with
  | some r => rw [hl] at h; simpa using h
  | none => rw [hl] at h; simpa using h

theorem assocLookup_upsertVehicleStates
    (s0 : List (String × VehicleStateRow))
    (rows : List VehicleTelemetryDto) (d : String) :
    assocLookup d (upsertVehicleStates s0 rows) =
      match (rows.filter (fun r => r.vehicleId == d)).getLast? with
      | some r => some r.toStateRow
      | none => assocLookup d s0 := by
  unfold upsertVehicleStates
  have h := assocLookup_foldl_insert (fun r => r.vehicleId)
    VehicleTelemetryDto.toStateRow rows s0 d
  cases hl : (rows.filter (fun r => r.vehicleId == d)).getLast? with
  | some r => rw [hl] at h; simpa using h
  | none => rw [hl] at h; simpa using h

/-! Concrete samples used by counterexamples and witnesses. -/

/-- Meter sample for meter m with the larger recorded timestamp, arriving
first in the batch. -/
def exM1 : MeterTelemetryDto := ⟨"m", 1, 1, 2⟩

/-- Meter sample for meter m with the smaller recorded timestamp, arriving
last in the batch. -/
def exM2 : MeterTelemetryDto := ⟨"m", 2, 2, 1⟩

/-- A vehicle sample for device id m. -/
def exV1 : VehicleTelemetryDto := ⟨"m", 50, 3, 25, 5⟩

/-- C9: Calling ingestMeterDataBatch or ingestVehicleDataBatch with an
empty array returns normally (ok), without acquiring a connection,
opening a transaction, or issuing any statement, and leaves the database
unchanged. -/
theorem c9_empty_batch_no_effects (txOk : Bool) (db : Db) :
    ingestMeterDataBatch txOk db [] = (db, IngestEffects.nothing, true) ∧
    ingestVehicleDataBatch txOk db [] = (db, IngestEffects.nothing, true) := by
  constructor <;> simp [ingestMeterDataBatch, ingestVehicleDataBatch]

/-- C1 counterexample: in the batch [exM1, exM2] for one meter, exM1 has
the larger recorded timestamp (2) but the dedup keeps exM2, the last-seen
sample, whose recorded timestamp is 1; after the batch commits the
hot-state row holds exM2's values, not those of the max-timestamp sample. -/
theorem c1_counterexample :
    dedupeByKey (fun x => x.meterId) [exM1, exM2] = [exM2] ∧
    exM2.timestamp < exM1.timestamp ∧
    assocLookup "m"
        ((ingestMeterDataBatch true emptyDb [exM1, exM2]).1.meterState) =
      some exM2.toStateRow ∧
    assocLookup "m"
        ((ingestMeterDataBatch true emptyDb [exM1, exM2]).1.meterState) ≠
      some exM1.toStateRow := by
  refine ⟨by decide, by decide, by decide, by decide⟩

/-- C1 (amended): the writer's in-memory dedup keeps, for each device id,
the last-seen sample among that device's samples in the batch, regardless
of recorded timestamps, and after the batch commits the hot-state row for
each device in the batch holds that last-seen sample's values. -/
theorem c1_amended_last_seen_wins (db : Db)
    (batch : List MeterTelemetryDto) (vbatch : List VehicleTelemetryDto)
    (d : String) (r : MeterTelemetryDto) (w : VehicleTelemetryDto)
    (hm : (batch.filter (fun x => x.meterId == d)).getLast? = some r)
    (hv : (vbatch.filter (fun x => x.vehicleId == d)).getLast? = some w) :
    r ∈ dedupeByKey (fun x => x.meterId) batch ∧
    assocLookup d ((ingestMeterDataBatch true db batch).1.meterState) =
      some r.toStateRow ∧
    w ∈ dedupeByKey (fun x => x.vehicleId) vbatch ∧
    assocLookup d ((ingestVehicleDataBatch true db vbatch).1.vehicleState) =
      some w.toStateRow := by
  have hbe : batch.isEmpty = false := by
    cases batch with
    | nil => simp at hm
    | cons a l => rfl
  have hvbe : vbatch.isEmpty = false := by
    cases vbatch with
    | nil => simp at hv
    | cons a l => rfl
  have hmg := dedupeByKey_filter_getLast (fun x => x.meterId) batch d
  rw [hm] at hmg
  have hvg := dedupeByKey_filter_getLast (fun x => x.vehicleId) vbatch d
  rw [hv] at hvg
  refine ⟨?_, ?_, ?_, ?_⟩
  · exact List.mem_of_mem_filter (List.mem_of_mem_getLast? hmg)
  · simp only [ingestMeterDataBatch, hbe, Bool.false_eq_true, if_false,
      if_true, ite_true]
    rw [assocLookup_upsertMeterStates, hmg]
  · exact List.mem_of_mem_filter (List.mem_of_mem_getLast? hvg)
  · simp only [ingestVehicleDataBatch, hvbe, Bool.false_eq_true, if_false,
      if_true, ite_true]
    rw [assocLookup_upsertVehicleStates, hvg]

/-- C1 witness: the amended statement evaluated on the batch [exM1, exM2]
for meter m and the batch [exV1] for vehicle m. -/
theorem c1_witness :
    exM2 ∈ dedupeByKey (fun x => x.meterId) [exM1, exM2] ∧
    assocLookup "m"
        ((ingestMeterDataBatch true emptyDb [exM1, exM2]).1.meterState) =
      some exM2.toStateRow ∧
    exV1 ∈ dedupeByKey (fun x => x.vehicleId) [exV1] ∧
    assocLookup "m"
        ((ingestVehicleDataBatch true emptyDb [exV1]).1.vehicleState) =
      some exV1.toStateRow :=
  c1_amended_last_seen_wins emptyDb [exM1, exM2] [exV1] "m" exM2 exV1
    (by decide) (by decide)

theorem ingestMeter_true_eq (db : Db) (batch : List MeterTelemetryDto)
    (hbe : batch.isEmpty = false) :
    ingestMeterDataBatch true db batch =
      ({ db with
          meterState := upsertMeterStates db.meterState
            (dedupeByKey (fun x => x.meterId) batch),
          meterHistory :=
            db.meterHistory ++ batch.map MeterTelemetryDto.toHistoryRow },
        ⟨true, 1, 2, 1, 0⟩, true) := by
  simp [ingestMeterDataBatch, hbe]

theorem ingestMeter_false_eq (db : Db) (batch : List MeterTelemetryDto)
    (hbe : batch.isEmpty = false) :
    ingestMeterDataBatch false db batch = (db, ⟨true, 1, 2, 0, 1⟩, false) := by
  simp [ingestMeterDataBatch, hbe]

theorem ingestVehicle_true_eq (db : Db) (batch : List VehicleTelemetryDto)
    (hbe : batch.isEmpty = false) :
    ingestVehicleDataBatch true db batch =
      ({ db with
          vehicleState := upsertVehicleStates db.vehicleState
            (dedupeByKey (fun x => x.vehicleId) batch),
          vehicleHistory :=
            db.vehicleHistory ++ batch.map VehicleTelemetryDto.toHistoryRow },
        ⟨true, 1, 2, 1, 0⟩, true) := by
  simp [ingestVehicleDataBatch, hbe]

theorem ingestVehicle_false_eq (db : Db) (batch : List VehicleTelemetryDto)
    (hbe : batch.isEmpty = false) :
    ingestVehicleDataBatch false db batch =
      (db, ⟨true, 1, 2, 0, 1⟩, false) := by
  simp [ingestVehicleDataBatch, hbe]

/-- C2: for every non-empty batch the writer acquires one connection and
issues one BEGIN with exactly two bulk statements; on commit the history
table gains exactly the k pre-dedup rows of the batch and the hot-state
upsert carries exactly one row per distinct device id (devices outside
the batch keep their hot-state row); on failure the database is unchanged
and the error is rethrown. Both streams behave alike. -/
theorem c2_single_transaction_dual_write (txOk : Bool) (db : Db)
    (batch : List MeterTelemetryDto) (vbatch : List VehicleTelemetryDto)
    (hb : batch ≠ []) (hvb : vbatch ≠ []) :
    ((ingestMeterDataBatch txOk db batch).2.1.connected = true ∧
      (ingestMeterDataBatch txOk db batch).2.1.begins = 1 ∧
      (ingestMeterDataBatch txOk db batch).2.1.statements = 2 ∧
      (txOk = true →
        (ingestMeterDataBatch txOk db batch).1.meterHistory =
          db.meterHistory ++ batch.map MeterTelemetryDto.toHistoryRow ∧
        (dedupeByKey (fun x => x.meterId) batch).length =
          (batch.map (fun x => x.meterId)).toFinset.card ∧
        (∀ d, d ∉ batch.map (fun x => x.meterId) →
          assocLookup d (ingestMeterDataBatch txOk db batch).1.meterState =
            assocLookup d db.meterState)) ∧
      (txOk = false → (ingestMeterDataBatch txOk db batch).1 = db ∧
        (ingestMeterDataBatch txOk db batch).2.2 = false)) ∧
    ((ingestVehicleDataBatch txOk db vbatch).2.1.connected = true ∧
      (ingestVehicleDataBatch txOk db vbatch).2.1.begins = 1 ∧
      (ingestVehicleDataBatch txOk db vbatch).2.1.statements = 2 ∧
      (txOk = true →
        (ingestVehicleDataBatch txOk db vbatch).1.vehicleHistory =
          db.vehicleHistory ++ vbatch.map VehicleTelemetryDto.toHistoryRow ∧
        (dedupeByKey (fun x => x.vehicleId) vbatch).length =
          (vbatch.map (fun x => x.vehicleId)).toFinset.card ∧
        (∀ d, d ∉ vbatch.map (fun x => x.vehicleId) →
          assocLookup d
              (ingestVehicleDataBatch txOk db vbatch).1.vehicleState =
            assocLookup d db.vehicleState)) ∧
      (txOk = false → (ingestVehicleDataBatch txOk db vbatch).1 = db ∧
        (ingestVehicleDataBatch txOk db vbatch).2.2 = false)) := by
  have hbe : batch.isEmpty = false := by
    cases batch with
    | nil => exact absurd rfl hb
    | cons a l => rfl
  have hvbe : vbatch.isEmpty = false := by
    cases vbatch with
    | nil => exact absurd rfl hvb
    | cons a l => rfl
  cases txOk with
  | false =>
      rw [ingestMeter_false_eq db batch hbe,
          ingestVehicle_false_eq db vbatch hvbe]
      refine ⟨⟨rfl, rfl, rfl, ?_, ?_⟩, ⟨rfl, rfl, rfl, ?_, ?_⟩⟩
      · intro h; exact absurd h (by simp)
      · intro _; exact ⟨rfl, rfl⟩
      · intro h; exact absurd h (by simp)
      · intro _; exact ⟨rfl, rfl⟩
  | true =>
      rw [ingestMeter_true_eq db batch hbe,
          ingestVehicle_true_eq db vbatch hvbe]
      refine ⟨⟨rfl, rfl, rfl, ?_, ?_⟩, ⟨rfl, rfl, rfl, ?_, ?_⟩⟩
      · intro _
        refine ⟨rfl, dedupeByKey_length (fun x => x.meterId) batch, ?_⟩
        intro d hd
        have hfe : batch.filter (fun x => x.meterId == d) = [] := by
          rw [List.filter_eq_nil_iff]
          intro x hx
          simp only [beq_iff_eq]
          intro hxd
          exact hd (List.mem_map.mpr ⟨x, hx, hxd⟩)
        have hg := dedupeByKey_filter_getLast (fun x => x.meterId) batch d
        rw [hfe] at hg
        simp only [List.getLast?_nil] at hg
        show assocLookup d (upsertMeterStates db.meterState
          (dedupeByKey (fun x => x.meterId) batch)) = assocLookup d db.meterState
        rw [assocLookup_upsertMeterStates, hg]
      · intro h; exact absurd h (by simp)
      · intro _
        refine ⟨rfl, dedupeByKey_length (fun x => x.vehicleId) vbatch, ?_⟩
        intro d hd
        have hfe : vbatch.filter (fun x => x.vehicleId == d) = [] := by
          rw [List.filter_eq_nil_iff]
          intro x hx
          simp only [beq_iff_eq]
          intro hxd
          exact hd (List.mem_map.mpr ⟨x, hx, hxd⟩)
        have hg := dedupeByKey_filter_getLast (fun x => x.vehicleId) vbatch d
        rw [hfe] at hg
        simp only [List.getLast?_nil] at hg
        show assocLookup d (upsertVehicleStates db.vehicleState
          (dedupeByKey (fun x => x.vehicleId) vbatch)) =
          assocLookup d db.vehicleState
        rw [assocLookup_upsertVehicleStates, hg]
      · intro h; exact absurd h (by simp)

/-- C2 witness: the dual-write shape evaluated on the two-sample meter
batch [exM1, exM2] and the one-sample vehicle batch [exV1]. -/
theorem c2_witness :
    (ingestMeterDataBatch true emptyDb [exM1, exM2]).2.1.begins = 1 ∧
    (ingestMeterDataBatch true emptyDb [exM1, exM2]).1.meterHistory =
      emptyDb.meterHistory ++
        [exM1, exM2].map MeterTelemetryDto.toHistoryRow ∧
    (dedupeByKey (fun x => x.meterId) [exM1, exM2]).length =
      ([exM1, exM2].map (fun x => x.meterId)).toFinset.card := by
  have h := c2_single_transaction_dual_write true emptyDb [exM1, exM2] [exV1]
    (by decide) (by decide)
  exact ⟨h.1.2.1, (h.1.2.2.2.1 rfl).1, (h.1.2.2.2.1 rfl).2.1⟩

/-! Lemmas about the MAX and MIN aggregates. -/

theorem listMax_mem_le (l : List ℚ) (m : ℚ) (h : listMax l = some m) :
    m ∈ l ∧ ∀ x ∈ l, x ≤ m := by
  induction l generalizing m with
  | nil => simp [listMax] at h
  | cons q qs ih =>
      rw [listMax] at h
      cases hq : listMax qs with
      | none =>
          rw [hq] at h
          simp only [Option.some.injEq] at h
          subst h
          have hqs : qs = [] := by
            cases qs with
            | nil => rfl
            | cons a l =>
                rw [listMax] at hq
                cases h2 : listMax l <;> rw [h2] at hq <;> simp at hq
          subst hqs
          simp
      | some m' =>
          rw [hq] at h
          simp only [Option.some.injEq] at h
          subst h
          obtain ⟨hmem, hub⟩ := ih m' hq
          constructor
          · rcases max_choice q m' with he | he
            · rw [he]; simp
            · rw [he]; simp [hmem]
          · intro x hx
            rcases List.mem_cons.mp hx with rfl | hx
            · exact le_max_left _ _
            · exact le_trans (hub x hx) (le_max_right _ _)

theorem listMin_mem_le (l : List ℚ) (m : ℚ) (h : listMin l = some m) :
    m ∈ l ∧ ∀ x ∈ l, m ≤ x := by
  induction l generalizing m with
  | nil => simp [listMin] at h
  | cons q qs ih =>
      rw [listMin] at h
      cases hq : listMin qs with
      | none =>
          rw [hq] at h
          simp only [Option.some.injEq] at h
          subst h
          have hqs : qs = [] := by
            cases qs with
            | nil => rfl
            | cons a l =>
                rw [listMin] at hq
                cases h2 : listMin l <;> rw [h2] at hq <;> simp at hq
          subst hqs
          simp
      | some m' =>
          rw [hq] at h
          simp only [Option.some.injEq] at h
          subst h
          obtain ⟨hmem, hlb⟩ := ih m' hq
          constructor
          · rcases min_choice q m' with he | he
            · rw [he]; simp
            · rw [he]; simp [hmem]
          · intro x hx
            rcases List.mem_cons.mp hx with rfl | hx
            · exact min_le_left _ _
            · exact le_trans (min_le_right _ _) (hlb x hx)

theorem listMax_isSome (l : List ℚ) (h : l ≠ []) : (listMax l).isSome := by
  cases l with
  | nil => exact absurd rfl h
  | cons q qs => rw [listMax]; cases listMax qs <;> rfl

theorem listMin_isSome (l : List ℚ) (h : l ≠ []) : (listMin l).isSome := by
  cases l with
  | nil => exact absurd rfl h
  | cons q qs => rw [listMin]; cases listMin qs <;> rfl

theorem listMax_congr_mem (l₁ l₂ : List ℚ) (h : ∀ x, x ∈ l₁ ↔ x ∈ l₂) :
    listMax l₁ = listMax l₂ := by
  cases hl1 : listMax l₁ with
  | none =>
      cases hl2 : listMax l₂ with
      | none => rfl
      | some m =>
          obtain ⟨hm, _⟩ := listMax_mem_le l₂ m hl2
          have hm1 : m ∈ l₁ := (h m).mpr hm
          have hne : l₁ ≠ [] := by
            intro he; rw [he] at hm1; simp at hm1
          have hs := listMax_isSome l₁ hne
          rw [hl1] at hs
          simp at hs
  | some m =>
      cases hl2 : listMax l₂ with
      | none =>
          obtain ⟨hm, _⟩ := listMax_mem_le l₁ m hl1
          have hm2 : m ∈ l₂ := (h m).mp hm
          have hne : l₂ ≠ [] := by
            intro he; rw [he] at hm2; simp at hm2
          have hs := listMax_isSome l₂ hne
          rw [hl2] at hs
          simp at hs
      | some m' =>
          obtain ⟨hm1, hub1⟩ := listMax_mem_le l₁ m hl1
          obtain ⟨hm2, hub2⟩ := listMax_mem_le l₂ m' hl2
          rw [le_antisymm (hub2 m ((h m).mp hm1)) (hub1 m' ((h m').mpr hm2))]

theorem listMin_congr_mem (l₁ l₂ : List ℚ) (h : ∀ x, x ∈ l₁ ↔ x ∈ l₂) :
    listMin l₁ = listMin l₂ := by
  cases hl1 : listMin l₁ with
  | none =>
      cases hl2 : listMin l₂ with
      | none => rfl
      | some m =>
          obtain ⟨hm, _⟩ := listMin_mem_le l₂ m hl2
          have hm1 : m ∈ l₁ := (h m).mpr hm
          have hne : l₁ ≠ [] := by
            intro he; rw [he] at hm1; simp at hm1
          have hs := listMin_isSome l₁ hne
          rw [hl1] at hs
          simp at hs
  | some m =>
      cases hl2 : listMin l₂ with
      | none =>
          obtain ⟨hm, _⟩ := listMin_mem_le l₁ m hl1
          have hm2 : m ∈ l₂ := (h m).mp hm
          have hne : l₂ ≠ [] := by
            intro he; rw [he] at hm2; simp at hm2
          have hs := listMin_isSome l₂ hne
          rw [hl2] at hs
          simp at hs
      | some m' =>
          obtain ⟨hm1, hlb1⟩ := listMin_mem_le l₁ m hl1
          obtain ⟨hm2, hlb2⟩ := listMin_mem_le l₂ m' hl2
          rw [le_antisymm (hlb1 m' ((h m').mpr hm2)) (hlb2 m ((h m).mp hm1))]

theorem maxMinusMin_congr (l₁ l₂ : List ℚ) (h : ∀ x, x ∈ l₁ ↔ x ∈ l₂) :
    maxMinusMin l₁ = maxMinusMin l₂ := by
  unfold maxMinusMin
  rw [listMax_congr_mem l₁ l₂ h, listMin_congr_mem l₁ l₂ h]

theorem mem_acJoinedKwh009 (db : Db) (vid : String) (s e : Time) (a : ℚ) :
    a ∈ acJoinedKwh009 db vid s e ↔
      a ∈ (db.meterHistory.filter (fun m =>
        decide (s ≤ m.recordedAt) && decide (m.recordedAt ≤ e)
          && db.sessions.any (fun vm =>
              vm.vehicleId == vid && vm.meterId == m.meterId
                && overlapOk vm s e))).map
        (fun m => m.kwhConsumedAc) := by
  simp only [acJoinedKwh009, List.mem_flatMap, List.mem_map, List.mem_filter,
    List.any_eq_true, Bool.and_eq_true, beq_iff_eq, decide_eq_true_eq]
  aesop

/-- C3 (amended): in the MAX-MIN variant of the aggregator,
totalAcConsumption equals max minus min of kwh_consumed_ac over the meter
history rows recorded inside the window whose meter had a session with
the vehicle overlapping the window (mapped_at up to the window end,
unmapped_at null or at least the window start), and rows of meters whose
session did not overlap contribute nothing; the analytics.service.ts
variant does not satisfy this formula. -/
theorem c3_amended_overlap_max_min (db : Db) (vid : String) (s e : Time) :
    totalAc009 db vid s e = claimTotalAcConsumption db vid s e ∧
    (∀ pm, getVehiclePerformance009 db vid s e = Except.ok pm →
      pm.totalAcConsumption = claimTotalAcConsumption db vid s e) := by
  have hbase : totalAc009 db vid s e = claimTotalAcConsumption db vid s e := by
    unfold totalAc009 claimTotalAcConsumption
    exact maxMinusMin_congr _ _ (mem_acJoinedKwh009 db vid s e)
  refine ⟨hbase, ?_⟩
  intro pm hpm
  unfold getVehiclePerformance009 perfFromRow jsStrictEqNum at hpm
  simp only [Bool.false_eq_true, if_false, Except.ok.injEq] at hpm
  rw [← hpm]
  show jsParseFloatOrZero (some (runPerfQuery009 db vid s e).total_ac) =
    claimTotalAcConsumption db vid s e
  rw [show (runPerfQuery009 db vid s e).total_ac =
      ⟨totalAc009 db vid s e⟩ from rfl]
  exact hbase

/-- Database of the C3 counterexample: one vehicle v in an active session
with meter m, two meter rows with consumption 10 then 30 in the window,
and one DC row so the aggregator succeeds. -/
def exDb3 : Db :=
  { meterState := []
    vehicleState := []
    meterHistory := [⟨"m", 10, 230, 1⟩, ⟨"m", 30, 230, 2⟩]
    vehicleHistory := [⟨"v", 50, 5, 25, 1⟩]
    sessions := [⟨"v", "m", 0, none, true⟩] }

/-- C3 counterexample: on exDb3 over the window 0..10 the
analytics.service.ts aggregator returns totalAcConsumption 40 (the SUM of
10 and 30), while the claim's max-minus-min formula gives 20. -/
theorem c3_counterexample :
    (getVehiclePerformanceMain exDb3 "v" 0 10).toOption.map
        (fun pm => pm.totalAcConsumption) = some 40 ∧
    claimTotalAcConsumption exDb3 "v" 0 10 = 20 ∧ (40 : ℚ) ≠ 20 := by
  refine ⟨?_, ?_, by norm_num⟩
  · simp only [getVehiclePerformanceMain, perfFromRow, runPerfQueryMain,
      jsStrictEqNum, jsParseFloatOrZero, totalAcMain, acJoinedKwhMain,
      dcRowsInWindow, exDb3]
    norm_num
    exact ⟨_, rfl, rfl⟩
  · simp only [claimTotalAcConsumption, maxMinusMin, listMax, listMin,
      overlapOk, exDb3]
    norm_num

/-- Result of the MAX-MIN aggregator on exDb3 over the window 0..10. -/
def exPm3 : PerformanceMetrics := ⟨"v", 20, 0, 0, some 25, 1⟩

/-- C3 witness: the amended statement evaluated on exDb3, where the
MAX-MIN aggregator reports totalAcConsumption 20 as the formula demands. -/
theorem c3_witness :
    totalAc009 exDb3 "v" 0 10 = claimTotalAcConsumption exDb3 "v" 0 10 ∧
    exPm3.totalAcConsumption = claimTotalAcConsumption exDb3 "v" 0 10 := by
  have hok : getVehiclePerformance009 exDb3 "v" 0 10 = Except.ok exPm3 := by
    simp only [getVehiclePerformance009, perfFromRow, runPerfQuery009,
      jsStrictEqNum, jsParseFloatOrZero, jsParseFloatOpt, jsParseIntPg,
      totalAc009, acJoinedKwh009, dcRowsInWindow, maxMinusMin, listMax,
      listMin, overlapOk, exDb3, exPm3]
    norm_num
  exact ⟨(c3_amended_overlap_max_min exDb3 "v" 0 10).1,
    (c3_amended_overlap_max_min exDb3 "v" 0 10).2 exPm3 hok⟩

/-- C4 (code bug): the claim and the spec require a not-found failure
exactly when the window holds no DC samples, and the code plainly
intends this (the dc_count check guarding NotFoundException), but the
driver delivers the bigint COUNT(*) as a string and the strict equality
row.dc_count === 0 never holds between a string and a number, so the
not-found branch is dead code: both variants always return a success
object, and on the failing input (a vehicle with no DC rows in the
window) the result has dataPoints 0, zero totals and a NaN average
temperature instead of the required not-found failure. -/
theorem c4_bug_not_found_unreachable :
    getVehiclePerformance009 emptyDb "v" 0 10 =
      Except.ok ⟨"v", 0, 0, 0, none, 0⟩ ∧
    getVehiclePerformanceMain emptyDb "v" 0 10 =
      Except.ok ⟨"v", 0, 0, 0, none, 0⟩ ∧
    dcRowsInWindow emptyDb "v" 0 10 = [] ∧
    (∀ (db : Db) (vid : String) (s e : Time),
      (getVehiclePerformance009 db vid s e).isOk = true) ∧
    (∀ (db : Db) (vid : String) (s e : Time),
      (getVehiclePerformanceMain db vid s e).isOk = true) := by
  refine ⟨?_, ?_, by decide, ?_, ?_⟩
  · simp only [getVehiclePerformance009, perfFromRow, runPerfQuery009,
      jsStrictEqNum, jsParseFloatOrZero, jsParseFloatOpt, jsParseIntPg,
      totalAc009, acJoinedKwh009, dcRowsInWindow, maxMinusMin, listMax,
      listMin, emptyDb]
    norm_num
  · simp only [getVehiclePerformanceMain, perfFromRow, runPerfQueryMain,
      jsStrictEqNum, jsParseFloatOrZero, jsParseFloatOpt, jsParseIntPg,
      totalAcMain, acJoinedKwhMain, dcRowsInWindow, emptyDb]
    norm_num
  · intro db vid s e
    simp only [getVehiclePerformance009, perfFromRow, jsStrictEqNum]
    rfl
  · intro db vid s e
    simp only [getVehiclePerformanceMain, perfFromRow, jsStrictEqNum]
    rfl

/-! Session-invariant preservation lemmas. -/

theorem inv_start (db : Db) (v m : String) (now : Time)
    (hinv : sessionInvariant db) :
    sessionInvariant (execSessionOp db (SessionOp.start v m now)) := by
  simp only [execSessionOp, startSession]
  by_cases hact : (activeSessionsFor db v).isEmpty = true
  · rw [if_pos hact]
    intro v'
    have hemp : activeSessionsFor db v = [] := by
      rwa [List.isEmpty_iff] at hact
    unfold activeSessionsFor at *
    simp only [List.filter_append]
    by_cases hv : v = v'
    · subst hv
      rw [hemp]
      simp
    · have : (v == v') = false := by simp [hv]
      simp [List.filter_cons, this]
      exact hinv v'
  · rw [if_neg hact]
    exact hinv

theorem inv_stop (db : Db) (v : String) (now : Time)
    (hinv : sessionInvariant db) :
    sessionInvariant (execSessionOp db (SessionOp.stop v now)) := by
  simp only [execSessionOp, endSession]
  by_cases hact : (activeSessionsFor db v).isEmpty = true
  · rw [if_pos hact]
    exact hinv
  · rw [if_neg hact]
    intro v'
    unfold activeSessionsFor at *
    have hc : ∀ r ∈ db.sessions,
        ((fun r => r.vehicleId == v' && r.isActive) (closeSessionRow v now r))
          = true →
        ((fun r => r.vehicleId == v' && r.isActive) r) = true := by
      intro r _ hr
      unfold closeSessionRow at hr
      by_cases hcl : (r.vehicleId == v && r.isActive) = true
      · rw [if_pos hcl] at hr
        simp at hr
      · rw [if_neg hcl] at hr
        exact hr
    calc (List.filter (fun r => r.vehicleId == v' && r.isActive)
            (db.sessions.map (closeSessionRow v now))).length
        = (db.sessions.map (closeSessionRow v now)).countP
            (fun r => r.vehicleId == v' && r.isActive) :=
          (List.countP_eq_length_filter _ _).symm
      _ = db.sessions.countP
            (fun r =>
              (closeSessionRow v now r).vehicleId == v' &&
                (closeSessionRow v now r).isActive) := List.countP_map _ _ _
      _ ≤ db.sessions.countP (fun r => r.vehicleId == v' && r.isActive) :=
          List.countP_mono_left hc
      _ = (List.filter (fun r => r.vehicleId == v' && r.isActive)
            db.sessions).length := List.countP_eq_length_filter _ _
      _ ≤ 1 := hinv v'

theorem inv_batchEnd (db : Db) (vs : List String) (now : Time)
    (hinv : sessionInvariant db) :
    sessionInvariant (execSessionOp db (SessionOp.batchEnd vs now)) := by
  simp only [execSessionOp, endBatchSessions]
  intro v'
  unfold activeSessionsFor at *
  have hc : ∀ r ∈ db.sessions,
      ((fun r => r.vehicleId == v' && r.isActive) (closeBatchRow vs now r))
        = true →
      ((fun r => r.vehicleId == v' && r.isActive) r) = true := by
    intro r _ hr
    unfold closeBatchRow at hr
    by_cases hcl : (vs.contains r.vehicleId && r.isActive) = true
    · rw [if_pos hcl] at hr
      simp at hr
    · rw [if_neg hcl] at hr
      exact hr
  calc (List.filter (fun r => r.vehicleId == v' && r.isActive)
          (db.sessions.map (closeBatchRow vs now))).length
      = (db.sessions.map (closeBatchRow vs now)).countP
          (fun r => r.vehicleId == v' && r.isActive) :=
        (List.countP_eq_length_filter _ _).symm
    _ = db.sessions.countP
          (fun r =>
            (closeBatchRow vs now r).vehicleId == v' &&
              (closeBatchRow vs now r).isActive) := List.countP_map _ _ _
    _ ≤ db.sessions.countP (fun r => r.vehicleId == v' && r.isActive) :=
        List.countP_mono_left hc
    _ = (List.filter (fun r => r.vehicleId == v' && r.isActive)
          db.sessions).length := List.countP_eq_length_filter _ _
    _ ≤ 1 := hinv v'

/-- C5 counterexample: the empty database satisfies the invariant, yet a
single startBatchSessions call listing vehicle v twice leaves two active
session rows for v, violating it; the bulk start performs no
active-session check. -/
theorem c5_counterexample :
    sessionInvariant emptyDb ∧
    ¬ sessionInvariant
        (execSessionOps emptyDb
          [SessionOp.batchStart ["v", "v"] ["m1", "m2"] 0]) := by
  constructor
  · intro v
    simp [activeSessionsFor, emptyDb]
  · intro h
    exact absurd (h "v") (by decide)

/-- C5 (amended): every sequence of startSession, endSession and
endBatchSessions operations preserves the at-most-one-active-session-per-
vehicle invariant; startBatchSessions inserts active rows without any
check and can violate it. -/
theorem c5_amended_invariant_preserved (db : Db) (ops : List SessionOp)
    (hinv : sessionInvariant db)
    (hops : ∀ op ∈ ops, op.isBatchStart = false) :
    sessionInvariant (execSessionOps db ops) := by
  induction ops generalizing db with
  | nil => exact hinv
  | cons op rest ih =>
      have hop : op.isBatchStart = false := hops op (by simp)
      have hrest : ∀ o ∈ rest, o.isBatchStart = false :=
        fun o ho => hops o (by simp [ho])
      show sessionInvariant (execSessionOps (execSessionOp db op) rest)
      refine ih (execSessionOp db op) ?_ hrest
      cases op with
      | start v m now => exact inv_start db v m now hinv
      | stop v now => exact inv_stop db v now hinv
      | batchStart vs ms now => simp [SessionOp.isBatchStart] at hop
      | batchEnd vs now => exact inv_batchEnd db vs now hinv

/-- C5 witness: the amended statement on the concrete sequence start then
stop for vehicle v from the empty database. -/
theorem c5_witness :
    sessionInvariant
      (execSessionOps emptyDb
        [SessionOp.start "v" "m" 0, SessionOp.stop "v" 1]) :=
  c5_amended_invariant_preserved emptyDb
    [SessionOp.start "v" "m" 0, SessionOp.stop "v" 1]
    (fun v => by simp [activeSessionsFor, emptyDb]) (by decide)

/-! Processor lemmas. -/

theorem processBatch_false_state (now : Time) (s : ProcessorState) :
    (processBatch false now s).1 = s := by
  unfold processBatch
  by_cases hp : s.isProcessing = true
  · rw [if_pos hp]
  · rw [if_neg hp]
    by_cases hj : (s.queue.take BATCH_SIZE).isEmpty = true
    · rw [if_pos hj]
    · rw [if_neg hj]
      simp only [Bool.false_eq_true, if_false]
      rw [ingestMeter_false_eq s.db _ (by simpa using hj)]

theorem processorTick_false_state (now : Time) (s : ProcessorState) :
    (processorTick false now s).1 = s := by
  unfold processorTick
  by_cases hp : s.isProcessing = true
  · rw [if_pos hp]
  · rw [if_neg hp]
    by_cases h1 : BATCH_SIZE ≤ s.queue.length
    · rw [if_pos h1]
      exact processBatch_false_state now s
    · rw [if_neg h1]
      by_cases h2 : 0 < s.queue.length ∧
          FALLBACK_INTERVAL_MS ≤ now - s.lastProcessTime
      · rw [if_pos h2]
        exact processBatch_false_state now s
      · rw [if_neg h2]

/-- A waiting meter job and an idle processor state holding it. -/
def exJob : MeterTelemetryDto := ⟨"m", 1, 1, 0⟩

/-- Processor state with one waiting job and no batch since time 0. -/
def exProc : ProcessorState := ⟨[exJob], 0, false, emptyDb⟩

/-- C6 counterexample: across 100 consecutive failed batch writes at the
periodic checks the processor state is completely unchanged — the job
never leaves the waiting queue for any dead-letter store and no attempt
count exists — and the failed batch is re-attempted at consecutive checks
10000, 10500 and 11000, a constant 500 ms apart rather than an
exponentially growing backoff. -/
theorem c6_counterexample :
    ((List.range 100).foldl
        (fun st (i : Nat) =>
          (processorTick false (10000 + 500 * (i : Int)) st).1)
        exProc) = exProc ∧
    (processorTick false 10000 exProc).2 = some [exJob] ∧
    (processorTick false 10500 exProc).2 = some [exJob] ∧
    (processorTick false 11000 exProc).2 = some [exJob] := by
  refine ⟨?_, by decide, by decide, by decide⟩
  have hfold : ∀ l : List Nat,
      l.foldl
        (fun st (i : Nat) =>
          (processorTick false (10000 + 500 * (i : Int)) st).1)
        exProc = exProc := by
    intro l
    induction l with
    | nil => rfl
    | cons a t ih =>
        rw [List.foldl_cons, processorTick_false_state]
        exact ih
  exact hfold (List.range 100)

/-- C6 (amended): when the batch write transaction fails, the processor
swallows the error after logging: the jobs stay in the waiting queue, the
database and the last-process clock are untouched (the whole state is
unchanged), and whenever a trigger condition still holds at a later
periodic check the same jobs are handed to the writer again; the embedded
processor has no exponential backoff, no attempt counter and no
dead-letter path. -/
theorem c6_amended_failure_keeps_jobs (now : Time) (s : ProcessorState) :
    (processorTick false now s).1 = s ∧
    (s.isProcessing = false → 0 < s.queue.length →
      (BATCH_SIZE ≤ s.queue.length ∨
        FALLBACK_INTERVAL_MS ≤ now - s.lastProcessTime) →
      (processorTick false now s).2 = some (s.queue.take BATCH_SIZE)) := by
  constructor
  · exact processorTick_false_state now s
  · intro hp hq htr
    have hjne : (s.queue.take BATCH_SIZE).isEmpty = false := by
      rw [List.isEmpty_eq_false, Ne, List.take_eq_nil_iff]
      push_neg
      refine ⟨?_, ?_⟩ <;> intro h
      · rw [BATCH_SIZE] at h
        simp at h
      · rw [h] at hq
        simp at hq
    unfold processorTick processBatch
    rcases htr with h1 | h2
    · rw [if_neg (by rw [hp]; simp), if_pos h1, if_neg (by rw [hp]; simp),
        if_neg (by rw [hjne]; simp)]
      simp
    · by_cases h1 : BATCH_SIZE ≤ s.queue.length
      · rw [if_neg (by rw [hp]; simp), if_pos h1, if_neg (by rw [hp]; simp),
          if_neg (by rw [hjne]; simp)]
        simp
      · rw [if_neg (by rw [hp]; simp), if_neg h1, if_pos ⟨hq, h2⟩,
          if_neg (by rw [hp]; simp), if_neg (by rw [hjne]; simp)]
        simp

/-- C6 witness: the failure-path statement on the one-job state at time
10000, where the time trigger holds. -/
theorem c6_witness :
    (processorTick false 10000 exProc).1 = exProc ∧
    (processorTick false 10000 exProc).2 =
      some (exProc.queue.take BATCH_SIZE) :=
  ⟨(c6_amended_failure_keeps_jobs 10000 exProc).1,
    (c6_amended_failure_keeps_jobs 10000 exProc).2 rfl (by decide)
      (Or.inr (by decide))⟩

/-- C7: a batch is handed to the writer only when no batch is in flight
and either the waiting count is at least BATCH_SIZE or the queue is
non-empty and FALLBACK_INTERVAL_MS has elapsed since the last completed
batch; the batch is the first BATCH_SIZE waiting jobs, hence holds at
most 1000 jobs, and equals everything waiting when the depth is at most
BATCH_SIZE; a tick that finds a batch in flight does nothing. -/
theorem c7_batch_trigger_shape (txOk : Bool) (now : Time)
    (s : ProcessorState) :
    (∀ b, (processorTick txOk now s).2 = some b →
      b = s.queue.take BATCH_SIZE ∧ b.length ≤ BATCH_SIZE ∧
      s.isProcessing = false ∧
      (BATCH_SIZE ≤ s.queue.length ∨
        (0 < s.queue.length ∧
          FALLBACK_INTERVAL_MS ≤ now - s.lastProcessTime)) ∧
      (s.queue.length ≤ BATCH_SIZE → b = s.queue)) ∧
    (s.isProcessing = true → processorTick txOk now s = (s, none)) := by
  have hbatch : ∀ b, (processBatch txOk now s).2 = some b →
      b = s.queue.take BATCH_SIZE := by
    intro b hb
    unfold processBatch at hb
    by_cases hp : s.isProcessing = true
    · rw [if_pos hp] at hb
      simp at hb
    · rw [if_neg hp] at hb
      by_cases hj : (s.queue.take BATCH_SIZE).isEmpty = true
      · rw [if_pos hj] at hb
        simp at hb
      · rw [if_neg hj] at hb
        cases txOk <;> simp at hb <;> exact hb.symm
  constructor
  · intro b hb
    have hp : s.isProcessing = false := by
      by_cases hp : s.isProcessing = true
      · unfold processorTick at hb
        rw [if_pos hp] at hb
        simp at hb
      · simpa using hp
    have htr : BATCH_SIZE ≤ s.queue.length ∨
        (0 < s.queue.length ∧
          FALLBACK_INTERVAL_MS ≤ now - s.lastProcessTime) := by
      unfold processorTick at hb
      rw [if_neg (by rw [hp]; simp)] at hb
      by_cases h1 : BATCH_SIZE ≤ s.queue.length
      · exact Or.inl h1
      · rw [if_neg h1] at hb
        by_cases h2 : 0 < s.queue.length ∧
            FALLBACK_INTERVAL_MS ≤ now - s.lastProcessTime
        · exact Or.inr h2
        · rw [if_neg h2] at hb
          simp at hb
    have hbt : b = s.queue.take BATCH_SIZE := by
      unfold processorTick at hb
      rw [if_neg (by rw [hp]; simp)] at hb
      by_cases h1 : BATCH_SIZE ≤ s.queue.length
      · rw [if_pos h1] at hb
        exact hbatch b hb
      · rw [if_neg h1] at hb
        by_cases h2 : 0 < s.queue.length ∧
            FALLBACK_INTERVAL_MS ≤ now - s.lastProcessTime
        · rw [if_pos h2] at hb
          exact hbatch b hb
        · rw [if_neg h2] at hb
          simp at hb
    refine ⟨hbt, ?_, hp, htr, ?_⟩
    · rw [hbt, List.length_take]
      exact min_le_left _ _
    · intro hle
      rw [hbt]
      exact List.take_of_length_le hle
  · intro hp
    unfold processorTick
    rw [if_pos hp]

/-- C7 witness: at time 10000 the one-job state hands the writer the
single waiting job (the time trigger), and the same state marked
in-flight does nothing. -/
theorem c7_witness :
    ([exJob] = exProc.queue.take BATCH_SIZE ∧
      [exJob].length ≤ BATCH_SIZE ∧ exProc.isProcessing = false ∧
      (BATCH_SIZE ≤ exProc.queue.length ∨
        (0 < exProc.queue.length ∧
          FALLBACK_INTERVAL_MS ≤ 10000 - exProc.lastProcessTime)) ∧
      (exProc.queue.length ≤ BATCH_SIZE → [exJob] = exProc.queue)) ∧
    processorTick true 10000
        ⟨[exJob], 0, true, emptyDb⟩ = (⟨[exJob], 0, true, emptyDb⟩, none) :=
  ⟨(c7_batch_trigger_shape true 10000 exProc).1 [exJob] (by decide),
    (c7_batch_trigger_shape true 10000 ⟨[exJob], 0, true, emptyDb⟩).2 rfl⟩

/-- C8: in the buffer-based intake, when the database write of a stream
fails during a flush, the samples swapped out for that flush are
discarded: the buffers are left empty (not restored), the failed stream's
tables are unchanged, and the resulting state is exactly the state of a
successful flush in which those samples had never been buffered — so they
are never written or retried. The error is caught: flush returns a state,
not an exception. -/
theorem c8_flush_failure_discards (s : BufferState)
    (hf : s.isFlushing = false) :
    (∀ vOk, s.meterBuffer ≠ [] →
      (flushBuffers false vOk s).meterBuffer = [] ∧
      (flushBuffers false vOk s).db.meterHistory = s.db.meterHistory ∧
      (flushBuffers false vOk s).db.meterState = s.db.meterState ∧
      flushBuffers false vOk s =
        flushBuffers true vOk { s with meterBuffer := [] }) ∧
    (∀ mOk, s.vehicleBuffer ≠ [] →
      (flushBuffers mOk false s).vehicleBuffer = [] ∧
      (flushBuffers mOk false s).db.vehicleHistory = s.db.vehicleHistory ∧
      (flushBuffers mOk false s).db.vehicleState = s.db.vehicleState ∧
      flushBuffers mOk false s =
        flushBuffers mOk true { s with vehicleBuffer := [] }) := by
  obtain ⟨mb, vb, fl, db⟩ := s
  simp only at hf
  subst hf
  constructor
  · intro vOk hne
    have hmbe : mb.isEmpty = false := by
      rw [List.isEmpty_eq_false]; exact hne
    cases vb with
    | nil =>
        cases vOk <;>
          simp [flushBuffers, hmbe, ingestMeter_false_eq db mb hmbe]
    | cons a t =>
        cases vOk with
        | true =>
            simp [flushBuffers, hmbe, ingestMeter_false_eq db mb hmbe,
              ingestVehicle_true_eq db (a :: t) rfl,
              ingestVehicle_true_eq _ (a :: t) rfl]
        | false =>
            simp [flushBuffers, hmbe, ingestMeter_false_eq db mb hmbe,
              ingestVehicle_false_eq db (a :: t) rfl,
              ingestVehicle_false_eq _ (a :: t) rfl]
  · intro mOk hne
    have hvbe : vb.isEmpty = false := by
      rw [List.isEmpty_eq_false]; exact hne
    cases mb with
    | nil =>
        cases mOk <;>
          simp [flushBuffers, hvbe, ingestVehicle_false_eq db vb hvbe]
    | cons a t =>
        cases mOk with
        | true =>
            simp [flushBuffers, hvbe, ingestMeter_true_eq db (a :: t) rfl,
              ingestVehicle_false_eq _ vb hvbe]
        | false =>
            simp [flushBuffers, hvbe, ingestMeter_false_eq db (a :: t) rfl,
              ingestVehicle_false_eq _ vb hvbe]

/-- C8 witness: the meter write fails on a state buffering one meter
sample and nothing else; the sample is gone and the state matches a
flush that never saw it. -/
theorem c8_witness :
    (flushBuffers false true ⟨[exJob], [], false, emptyDb⟩).meterBuffer
        = [] ∧
    (flushBuffers false true ⟨[exJob], [], false, emptyDb⟩).db.meterHistory
        = emptyDb.meterHistory ∧
    (flushBuffers false true ⟨[exJob], [], false, emptyDb⟩).db.meterState
        = emptyDb.meterState ∧
    flushBuffers false true ⟨[exJob], [], false, emptyDb⟩ =
      flushBuffers true true
        { meterBuffer := ([] : List MeterTelemetryDto),
          vehicleBuffer := ([] : List VehicleTelemetryDto),
          isFlushing := false, db := emptyDb } :=
  (c8_flush_failure_discards ⟨[exJob], [], false, emptyDb⟩ rfl).1 true
    (by decide)

/-- Fleet-snapshot database where vehicle v has an active session on
meter m whose hot-state row reads exactly 0 kWh and 0 V. -/
def exDbA : Db :=
  ⟨[("m", ⟨0, 0, 7⟩)], [("v", ⟨50, 3, 25, 9⟩)], [], [], [⟨"v", "m", 1, none, true⟩]⟩

/-- The same database with no session at all. -/
def exDbB : Db :=
  ⟨[("m", ⟨0, 0, 7⟩)], [("v", ⟨50, 3, 25, 9⟩)], [], [], []⟩

/-- C10 counterexample: the claim says a meter-state reading of exactly
0 is reported as undefined and is indistinguishable from having no
active session; in fact the zero arrives as a non-empty numeric string,
which is truthy, so the row with a zero reading maps to 0 while the
no-session row maps to undefined, and the two concrete fleets above
produce different outputs. -/
theorem c10_counterexample :
    (mapSnapshotRow ⟨"v", 50, 3, 25, 9, some ⟨0⟩, some ⟨0⟩, some 7⟩).meterKwhConsumedAc
        = some 0 ∧
    ¬ (mapSnapshotRow
        ⟨"v", 50, 3, 25, 9, some ⟨0⟩, some ⟨0⟩, some 7⟩).meterKwhConsumedAc
        = none ∧
    (mapSnapshotRow ⟨"v", 50, 3, 25, 9, none, none, none⟩).meterKwhConsumedAc
        = none ∧
    (getAllVehicleStates exDbA 100).map
        (fun o => (o.vehicleId, o.meterKwhConsumedAc, o.meterVoltage)) =
      [("v", some 0, some 0)] ∧
    (getAllVehicleStates exDbB 100).map
        (fun o => (o.vehicleId, o.meterKwhConsumedAc, o.meterVoltage)) =
      [("v", none, none)] := by
  refine ⟨by decide, by decide, by decide, by decide, by decide⟩

/-- C10 (amended): the snapshot mapping's truthiness check collapses
only SQL NULL to undefined: the meter columns arrive as non-empty
numeric strings, so a reading of exactly 0 is truthy and is reported as
0 — distinguishable from a missing session — and the meter fields are
undefined exactly when the LEFT JOIN produced NULL. -/
theorem c10_amended_null_only_collapse (r : SnapshotRow) :
    (mapSnapshotRow r).meterKwhConsumedAc = r.meterKwh.map jsParseFloatPg ∧
    (mapSnapshotRow r).meterVoltage = r.meterVolt.map jsParseFloatPg ∧
    ((mapSnapshotRow r).meterKwhConsumedAc = none ↔ r.meterKwh = none) ∧
    ((mapSnapshotRow r).meterVoltage = none ↔ r.meterVolt = none) := by
  obtain ⟨v, soc, kwh, temp, lu, mk, mv, ml⟩ := r
  cases mk <;> cases mv <;>
    simp [mapSnapshotRow, jsTruthyPg, jsParseFloatPg]

end SmartEV
